import Mathlib

/-!
Verification development for the NEUROS memory system
(`src/neuros/storage.py`, `src/neuros/core.py`, `src/neuros/embeddings.py`).

The Record Store (`MemoryStorage`, SQLite-backed) is embedded as a pure
state-passing model: the `memories` table is a list of rows in insertion
order together with the AUTOINCREMENT sequence counter, and each SQL
statement used by the source is translated to an executable Lean function.
Timestamps (`CURRENT_TIMESTAMP`) are passed in explicitly as a `now : Nat`
argument.  The orchestrator (`NEUROS`) is embedded on top of it, with the
external semantic backend's outcome (the result of
`EmbeddingManager.search_similar`, which either returns a list of hits or
raises) supplied as an explicit `Except Unit (List SemanticHit)` argument,
and the best-effort embedding writes (`store_embedding`,
`update_embedding`, `delete_embedding` — which catch all exceptions
internally and return a boolean) supplied as an explicit `Bool` outcome.
-/

/-- ASCII case folding as performed by SQLite's `LIKE` operator, which is
case-insensitive for the 26 ASCII letters only. -/
def likeFold (c : Char) : Char :=
  if 'A' ≤ c ∧ c ≤ 'Z' then Char.ofNat (c.toNat + 32) else c

/-- SQLite `LIKE` pattern matching over characters: in a pattern, a percent
sign matches any sequence of zero or more characters, an underscore matches
any single character, and any other character matches itself up to ASCII
case folding.  This embeds the semantics of the `content LIKE ?` and
`tags LIKE ?` clauses issued by `MemoryStorage.search_memories`. -/
def likeMatch : List Char → List Char → Bool
  | [], s => s.isEmpty
  | p :: ps, s =>
    if p = '%' then s.tails.any (fun t => likeMatch ps t)
    else if p = '_' then
      match s with
      | [] => false
      | _ :: cs => likeMatch ps cs
    else
      match s with
      | [] => false
      | c :: cs => (likeFold p == likeFold c) && likeMatch ps cs

/-- The `column LIKE '%' || q || '%'` test built by `search_memories`
(Python `f"%.{0}%"`-style interpolation `f"%\x7bquery\x7d%"`). -/
def likeContains (q s : String) : Bool :=
  likeMatch ('%' :: (q.toList ++ ['%'])) s.toList

/-- Case-insensitive-substring containment stated independently of `LIKE`:
`needle` occurs inside `hay` once both are ASCII-case-folded.  This is the
specification-side reading of "contains the query as a substring
(case-insensitively)". -/
def containsSub (needle hay : List Char) : Bool :=
  hay.tails.any (fun t => needle.isPrefixOf t)

/-- A string with no `LIKE` metacharacters, i.e. one for which the SQL
pattern `%s%` expresses plain substring search. -/
def plainStr (q : String) : Prop :=
  ∀ c ∈ q.toList, ¬c = '%' ∧ ¬c = '_'

instance (q : String) : Decidable (plainStr q) := by
  unfold plainStr; infer_instance

/-- Minimal JSON string escaping used by `json.dumps` on the tag labels
(model domain: printable ASCII labels, for which only backslash and the
double quote are escaped). -/
def jsonEscape (s : String) : String :=
  ⟨(s.toList.map fun c =>
      if c = '\\' then ['\\', '\\']
      else if c = '"' then ['\\', '"']
      else [c]).flatten⟩

/-- The TEXT stored in the `tags` column: `json.dumps(tags)` for a list of
tag labels, e.g. `json.dumps(["x","y"])` is `["x", "y"]` with `", "` as the
default item separator. -/
def tagsDumps (ts : List String) : String :=
  "[" ++ String.intercalate ", " (ts.map fun t => "\"" ++ jsonEscape t ++ "\"") ++ "]"

/-- Metadata is an opaque mapping of key-value pairs (never interpreted by
the store); modelled as an association list. -/
def Meta := List (String × String)
deriving DecidableEq

/-- Python truthiness on an optional list value, as used by
`json.dumps(x) if x else None`: `None` and the empty collection are falsy. -/
def truthy {α : Type} : Option (List α) → Option (List α)
  | some (x :: xs) => some (x :: xs)
  | _ => none

/-- One row of the `memories` table.  `metadata` and `tags` hold the
structured value whose `json.dumps` image is the stored TEXT (`none` for SQL
NULL); `json.loads` of a TEXT this model writes always succeeds, so
`_row_to_dict` returns exactly these values.  `importance` is the INTEGER
column (no CHECK constraint), and the timestamps are abstract instants. -/
structure MemoryRow where
  id : Nat
  content : String
  metadata : Option Meta
  tags : Option (List String)
  importance : Int
  created_at : Nat
  updated_at : Nat
deriving DecidableEq

/-- State of `MemoryStorage`: the rows of the `memories` table in insertion
order, plus `nextId`, the AUTOINCREMENT sequence (SQLite's
`sqlite_sequence` entry plus one): the id handed to the next INSERT.  The
sequence never decreases, which is exactly the documented semantics of
`INTEGER PRIMARY KEY AUTOINCREMENT` — deleted ids are never reused. -/
structure MemoryStorage where
  rows : List MemoryRow
  nextId : Nat
deriving DecidableEq

/-- A freshly initialized (empty) store; SQLite assigns 1 to the first
AUTOINCREMENT row. -/
def MemoryStorage.empty : MemoryStorage := { rows := [], nextId := 1 }

/-- Well-formedness maintained by the real database: every existing row's
id is below the AUTOINCREMENT sequence value. -/
def MemoryStorage.WF (st : MemoryStorage) : Prop :=
  ∀ r ∈ st.rows, r.id < st.nextId

instance (st : MemoryStorage) : Decidable st.WF := by
  unfold MemoryStorage.WF; infer_instance

/-- `MemoryStorage.store_memory`: serialize metadata and tags with
`json.dumps(x) if x else None`, INSERT the row (assigning the next
AUTOINCREMENT id, `created_at = updated_at = CURRENT_TIMESTAMP`), and
return `cursor.lastrowid`. -/
def MemoryStorage.store_memory (st : MemoryStorage) (now : Nat) (content : String)
    (metadata : Option Meta) (tags : Option (List String)) (importance : Int) :
    MemoryStorage × Nat :=
  let row : MemoryRow :=
    { id := st.nextId
      content := content
      metadata := truthy metadata
      tags := truthy tags
      importance := importance
      created_at := now
      updated_at := now }
  ({ rows := st.rows ++ [row], nextId := st.nextId + 1 }, st.nextId)

/-- `MemoryStorage.get_memory`: `SELECT * FROM memories WHERE id = ?`,
returning the row as a dictionary or `None`. -/
def MemoryStorage.get_memory (st : MemoryStorage) (memory_id : Nat) : Option MemoryRow :=
  st.rows.find? (fun r => r.id == memory_id)

/-- The `content LIKE ?` clause of `search_memories`, added only when
`query` is truthy (neither `None` nor the empty string). -/
def contentPred (query : Option String) (r : MemoryRow) : Bool :=
  match query with
  | none => true
  | some q => if q = "" then true else likeContains q r.content

/-- The tag clauses of `search_memories`: when the tag list is truthy, one
`AND tags LIKE '%' || tag || '%'` clause per requested tag, evaluated
against the TEXT of the `tags` column (a SQL NULL satisfies no LIKE
clause, so a row with NULL tags never matches a non-empty filter). -/
def tagsPred (tags : Option (List String)) (r : MemoryRow) : Bool :=
  match tags with
  | none => true
  | some [] => true
  | some (t :: ts) =>
    match r.tags with
    | none => false
    | some rts => (t :: ts).all fun tag => likeContains tag (tagsDumps rts)

/-- The full WHERE clause of `search_memories`. -/
def rowMatches (query : Option String) (tags : Option (List String)) (r : MemoryRow) : Bool :=
  contentPred query r && tagsPred tags r

/-- The `ORDER BY importance DESC, created_at DESC` key: `a` may be placed
before `b`. -/
def searchLe (a b : MemoryRow) : Bool :=
  (b.importance < a.importance) || ((a.importance == b.importance) && (b.created_at ≤ a.created_at))

/-- Stable insertion into a sorted list (an element is placed before the
first existing element it may precede). -/
def insertLe {α : Type} (le : α → α → Bool) (x : α) : List α → List α
  | [] => [x]
  | y :: ys => if le x y then x :: y :: ys else y :: insertLe le x ys

/-- Stable sort realizing the declarative `ORDER BY` of the SQL statements
(tie groups keep table order). -/
def isort {α : Type} (le : α → α → Bool) : List α → List α
  | [] => []
  | x :: xs => insertLe le x (isort le xs)

/-- `MemoryStorage.search_memories`: WHERE clauses for the truthy `query`
and `tags` arguments, `ORDER BY importance DESC, created_at DESC`,
`LIMIT ?`. -/
def MemoryStorage.search_memories (st : MemoryStorage) (query : Option String)
    (tags : Option (List String)) (limit : Nat) : List MemoryRow :=
  (isort searchLe (st.rows.filter (rowMatches query tags))).take limit

/-- The SET clause applied by `MemoryStorage.update_memory` to a matching
row: each supplied (non-`None`) field is overwritten — note that a supplied
empty metadata mapping or tag list is stored as `json.dumps` of the empty
collection (a truthy TEXT), not as NULL — and `updated_at` is refreshed. -/
def applyUpdate (now : Nat) (content : Option String) (metadata : Option Meta)
    (tags : Option (List String)) (importance : Option Int) (r : MemoryRow) : MemoryRow :=
  { r with
    content := content.getD r.content
    metadata := match metadata with | none => r.metadata | some m => some m
    tags := match tags with | none => r.tags | some t => some t
    importance := importance.getD r.importance
    updated_at := now }

/-- `MemoryStorage.update_memory`: if no field is supplied the call is a
no-op returning `False`; otherwise `UPDATE memories SET ... WHERE id = ?`
runs and the result is `cursor.rowcount > 0` (whether a row matched). -/
def MemoryStorage.update_memory (st : MemoryStorage) (now : Nat) (memory_id : Nat)
    (content : Option String) (metadata : Option Meta) (tags : Option (List String))
    (importance : Option Int) : MemoryStorage × Bool :=
  if content = none ∧ metadata = none ∧ tags = none ∧ importance = none then
    (st, false)
  else
    ({ st with
        rows := st.rows.map fun r =>
          if r.id == memory_id then applyUpdate now content metadata tags importance r
          else r },
      st.rows.any (fun r => r.id == memory_id))

/-- `MemoryStorage.delete_memory`: `DELETE FROM memories WHERE id = ?`,
returning `cursor.rowcount > 0`. -/
def MemoryStorage.delete_memory (st : MemoryStorage) (memory_id : Nat) :
    MemoryStorage × Bool :=
  ({ st with rows := st.rows.filter (fun r => !(r.id == memory_id)) },
    st.rows.any (fun r => r.id == memory_id))

/-- Python `str.strip()`: drop leading and trailing whitespace (model
domain: ASCII whitespace). -/
def pyStrip (s : String) : String :=
  ⟨((s.toList.dropWhile Char.isWhitespace).reverse.dropWhile Char.isWhitespace).reverse⟩

/-- One hit returned by `EmbeddingManager.search_similar`: the memory id it
was indexed under (already parsed by `int(...)`) and its similarity score.
Scores are floats in the source; no arithmetic is performed on them along
the recall path (the `min_similarity` cut happens inside the external
`search_similar`), so they are carried as opaque integer payloads here. -/
structure SemanticHit where
  memory_id : Nat
  similarity : Int
deriving DecidableEq

/-- One element of `NEUROS.recall`'s result: the memory dictionary with the
keys `recall` adds to it (`similarity` when the hit came from the semantic
path, and `search_type`). -/
structure RecallResult where
  record : MemoryRow
  similarity : Option Int
  search_type : String
deriving DecidableEq

/-- State of the orchestrator: the SQLite storage plus whether
`self.embeddings` is set (the `EmbeddingManager` initialized
successfully). -/
structure NEUROS where
  storage : MemoryStorage
  embeddings : Bool
deriving DecidableEq

/-- The text-fallback tail of `NEUROS.recall`: `search_memories` results
appended with `search_type = 'text'`, then `memories[:limit]`. -/
def NEUROS.textResults (n : NEUROS) (query : Option String)
    (tags : Option (List String)) (limit : Nat) : List RecallResult :=
  ((n.storage.search_memories query tags limit).map fun m =>
    { record := m, similarity := none, search_type := "text" }).take limit

/-- The resolution loop of `NEUROS.recall`'s semantic branch: each hit is
resolved by `self.storage.get_memory`; hits whose id no longer resolves
are dropped, the rest get `similarity` and `search_type = 'semantic'`. -/
def resolveHits (st : MemoryStorage) (hits : List SemanticHit) : List RecallResult :=
  hits.filterMap fun h =>
    (st.get_memory h.memory_id).map fun m =>
      { record := m, similarity := some h.similarity, search_type := "semantic" }

/-- `NEUROS.recall`.  The outcome of the external
`self.embeddings.search_similar(query, limit, min_similarity)` sub-call is
supplied as `semantic`: `.ok hits` when it returned a hit list, `.error ()`
when the guarded block raised (modelled as raising inside the sub-call,
before any result is accumulated).  The semantic branch runs only when
`use_semantic` is set, `self.embeddings` is configured, and the query is
truthy with a trimmed length above 2; it returns `memories[:limit]` when
`len(memories) >= limit or len(memories) > 0`, and otherwise falls through
to the text search. -/
def NEUROS.recall (n : NEUROS) (semantic : Except Unit (List SemanticHit))
    (query : Option String) (tags : Option (List String))
    (use_semantic : Bool) (limit : Nat) : List RecallResult :=
  let eligible := use_semantic && n.embeddings &&
    (match query with
     | none => false
     | some q => (q != "") && (pyStrip q != "") && decide (2 < (pyStrip q).length))
  if eligible then
    match semantic with
    | .ok hits =>
      let memories := resolveHits n.storage hits
      if limit ≤ memories.length || 0 < memories.length then memories.take limit
      else n.textResults query tags limit
    | .error _ => n.textResults query tags limit
  else n.textResults query tags limit

/-- Result of `NEUROS.remember`: the updated storage, the id returned to
the caller, and the observed best-effort embedding step (whether
`store_embedding` was called and what it returned; in the source its
`False` outcome is only logged). -/
structure RememberResult where
  storage : MemoryStorage
  id : Nat
  embedCalled : Bool
  embedOk : Bool
deriving DecidableEq

/-- `NEUROS.remember`: store in SQLite first, then — if embeddings are
configured and the returned id is truthy — call `store_embedding`, whose
boolean outcome (`embedOutcome` here; `store_embedding` catches every
exception internally and returns `False`) is only logged. -/
def NEUROS.remember (n : NEUROS) (now : Nat) (embedOutcome : Bool)
    (content : String) (metadata : Option Meta) (tags : Option (List String))
    (importance : Int) : RememberResult :=
  let p := n.storage.store_memory now content metadata tags importance
  let called := n.embeddings && (p.2 != 0)
  { storage := p.1, id := p.2, embedCalled := called,
    embedOk := called && embedOutcome }

/-- Result of `NEUROS.update_memory` / `NEUROS.delete_memory`: the updated
storage, the boolean returned to the caller, and the observed best-effort
index step. -/
structure UpdateResult where
  storage : MemoryStorage
  success : Bool
  embedCalled : Bool
  embedOk : Bool
deriving DecidableEq

/-- `NEUROS.update_memory`: delegate to the storage update; then
`if success and content and self.embeddings` (note `content` is tested for
Python truthiness, so a supplied empty string skips the re-embedding) call
`update_embedding`, whose boolean outcome is only logged.  The caller gets
the storage's success flag regardless. -/
def NEUROS.update_memory (n : NEUROS) (now : Nat) (embedOutcome : Bool)
    (memory_id : Nat) (content : Option String) (metadata : Option Meta)
    (tags : Option (List String)) (importance : Option Int) : UpdateResult :=
  let p := n.storage.update_memory now memory_id content metadata tags importance
  let contentTruthy := match content with | some s => s != "" | none => false
  let called := p.2 && contentTruthy && n.embeddings
  { storage := p.1, success := p.2, embedCalled := called,
    embedOk := called && embedOutcome }

/-- `NEUROS.delete_memory`: delegate to the storage delete; on success and
with embeddings configured, call `delete_embedding` (boolean outcome only
logged); return the storage's flag. -/
def NEUROS.delete_memory (n : NEUROS) (embedOutcome : Bool) (memory_id : Nat) :
    UpdateResult :=
  let p := n.storage.delete_memory memory_id
  let called := p.2 && n.embeddings
  { storage := p.1, success := p.2, embedCalled := called,
    embedOk := called && embedOutcome }

/-- Specification-side content predicate: the query occurs in the content
as a substring up to ASCII case folding. -/
def ciContains (q s : String) : Bool :=
  containsSub (q.toList.map likeFold) (s.toList.map likeFold)

/-- Specification-side row predicate (amended matching rule): the content
contains the query case-insensitively, and every requested tag occurs
case-insensitively in the JSON encoding of the row's tags (a row with
absent tags matches no non-empty tag filter). -/
def specRowMatches (q : String) (tags : Option (List String)) (r : MemoryRow) : Bool :=
  ciContains q r.content &&
    (match tags with
     | none => true
     | some [] => true
     | some (t :: ts) =>
       match r.tags with
       | none => false
       | some rts => (t :: ts).all fun tag => ciContains tag (tagsDumps rts))

/-- Specification-side text search: filter by the amended matching rule,
order by importance descending then created_at descending (stably), and
truncate to `limit`. -/
def specTextSearch (st : MemoryStorage) (q : String) (tags : Option (List String))
    (limit : Nat) : List MemoryRow :=
  (isort searchLe (st.rows.filter (specRowMatches q tags))).take limit

/-- One mutating Record Store call, for stating properties over arbitrary
operation sequences. -/
inductive StorageOp where
  | store (now : Nat) (content : String) (md : Option Meta) (tags : Option (List String))
      (imp : Int)
  | update (now : Nat) (id : Nat) (content : Option String) (md : Option Meta)
      (tags : Option (List String)) (imp : Option Int)
  | delete (id : Nat)

/-- Apply one mutating call to the store (dropping the returned value). -/
def applyOp (st : MemoryStorage) : StorageOp → MemoryStorage
  | .store now c md tg imp => (st.store_memory now c md tg imp).1
  | .update now id c md tg imp => (st.update_memory now id c md tg imp).1
  | .delete id => (st.delete_memory id).1

/-- Store holding one record with content `say hello` and importance 2. -/
def c1Storage : MemoryStorage := (MemoryStorage.empty.store_memory 0 "say hello" none none 2).1

/-- Orchestrator with semantic search configured over `c1Storage`. -/
def c1N : NEUROS := { storage := c1Storage, embeddings := true }

/-- Store holding one record with content `Needle thread`. -/
def c2Storage : MemoryStorage :=
  (MemoryStorage.empty.store_memory 0 "Needle thread" none none 1).1

/-- Orchestrator without semantic search over `c2Storage`. -/
def c2N : NEUROS := { storage := c2Storage, embeddings := false }

/-- Store with a tagged record and an untagged one, for text-search
witnesses. -/
def w2Storage : MemoryStorage :=
  ((MemoryStorage.empty.store_memory 0 "Thread one" none (some ["Work"]) 3).1.store_memory
      1 "no match here" none none 5).1

/-- Orchestrator without semantic search over `w2Storage`. -/
def w2N : NEUROS := { storage := w2Storage, embeddings := false }

/-- Store holding one record tagged `x` and `y`. -/
def c3Storage : MemoryStorage :=
  (MemoryStorage.empty.store_memory 0 "note" none (some ["x", "y"]) 1).1

/-- Row as stored by `c3Storage` (tags `x`, `y`). -/
def c3Row : MemoryRow :=
  { id := 1, content := "note", metadata := none, tags := some ["x", "y"], importance := 1,
    created_at := 0, updated_at := 0 }

/-- Orchestrator over an empty store, with no semantic search. -/
def c4N : NEUROS := { storage := MemoryStorage.empty, embeddings := false }

/-- Store holding a record of importance 0 and one of importance 4. -/
def c5Storage : MemoryStorage :=
  ((MemoryStorage.empty.store_memory 0 "low" none none 0).1.store_memory 1 "mid" none none 4).1

/-- The importance-0 row of `c5Storage`. -/
def c5Row : MemoryRow :=
  { id := 1, content := "low", metadata := none, tags := none, importance := 0,
    created_at := 0, updated_at := 0 }

/-- Orchestrator with semantic search configured over a store holding one
record with id 1, for stale-index scenarios. -/
def c7N : NEUROS :=
  { storage := (MemoryStorage.empty.store_memory 0 "kept record" none none 1).1,
    embeddings := true }

/-- Orchestrator whose store holds one row with id 1, for update
scenarios. -/
def c10N : NEUROS :=
  { storage := (MemoryStorage.empty.store_memory 0 "old content" none none 1).1,
    embeddings := true }

/-- The single row of the store of `c10N`. -/
def c10Row : MemoryRow :=
  { id := 1, content := "old content", metadata := none, tags := none, importance := 1,
    created_at := 0, updated_at := 0 }

lemma mem_insertLe {α : Type} (le : α → α → Bool) (x y : α) (l : List α) :
    y ∈ insertLe le x l ↔ y = x ∨ y ∈ l := by
  induction l with
  | nil => simp [insertLe]
  | cons a l ih =>
    simp only [insertLe]
    split
    · simp
    · simp [ih]; tauto

lemma mem_isort {α : Type} (le : α → α → Bool) (y : α) (l : List α) :
    y ∈ isort le l ↔ y ∈ l := by
  induction l with
  | nil => simp [isort]
  | cons a l ih => simp [isort, mem_insertLe, ih]

lemma length_insertLe {α : Type} (le : α → α → Bool) (x : α) (l : List α) :
    (insertLe le x l).length = l.length + 1 := by
  induction l with
  | nil => rfl
  | cons a l ih =>
    simp only [insertLe]
    split
    · rfl
    · simp [ih]

lemma length_isort {α : Type} (le : α → α → Bool) (l : List α) :
    (isort le l).length = l.length := by
  induction l with
  | nil => rfl
  | cons a l ih => simp [isort, length_insertLe, ih]

lemma any_congrB {α : Type} {p q : α → Bool} (l : List α) (h : ∀ x ∈ l, p x = q x) :
    l.any p = l.any q := by
  induction l with
  | nil => rfl
  | cons a l ih =>
    simp only [List.any_cons, h a (List.mem_cons_self a l),
      ih fun x hx => h x (List.mem_cons_of_mem a hx)]

lemma all_congrB {α : Type} {p q : α → Bool} (l : List α) (h : ∀ x ∈ l, p x = q x) :
    l.all p = l.all q := by
  induction l with
  | nil => rfl
  | cons a l ih =>
    simp only [List.all_cons, h a (List.mem_cons_self a l),
      ih fun x hx => h x (List.mem_cons_of_mem a hx)]

lemma likeMatch_pct_cons (ps : List Char) (s : List Char) :
    likeMatch ('%' :: ps) s = s.tails.any (fun t => likeMatch ps t) := by
  simp [likeMatch]

lemma likeMatch_append_pct (p : List Char) (hp : ∀ c ∈ p, ¬c = '%' ∧ ¬c = '_') :
    ∀ s : List Char, likeMatch (p ++ ['%']) s = (p.map likeFold).isPrefixOf (s.map likeFold) := by
  induction p with
  | nil =>
    intro s
    simp only [List.nil_append, List.map_nil, List.isPrefixOf_nil_left]
    rw [likeMatch_pct_cons]
    simp only [List.any_eq_true]
    exact ⟨[], by simp [List.mem_tails], rfl⟩
  | cons c p ih =>
    intro s
    have hc := hp c (List.mem_cons_self c p)
    have hp' : ∀ x ∈ p, ¬x = '%' ∧ ¬x = '_' := fun x hx => hp x (List.mem_cons_of_mem c hx)
    cases s with
    | nil => simp [likeMatch, hc.1, hc.2]
    | cons c' cs =>
      simp only [List.cons_append, likeMatch, hc.1, hc.2, if_false, List.map_cons,
        List.isPrefixOf_cons₂]
      exact congrArg (fun b => (likeFold c == likeFold c') && b) (ih hp' cs)

lemma likeContains_eq_ciContains (q : String) (hq : plainStr q) (s : String) :
    likeContains q s = ciContains q s := by
  unfold likeContains ciContains containsSub
  rw [likeMatch_pct_cons, List.map_tails, List.any_map]
  exact any_congrB _ fun t _ => likeMatch_append_pct q.toList hq t

lemma ciContains_empty (s : String) : ciContains "" s = true := by
  unfold ciContains containsSub
  simp only [List.any_eq_true]
  refine ⟨s.toList.map likeFold, by simp [List.mem_tails], by simp⟩

lemma contentPred_eq_spec (q : String) (hq : plainStr q) (r : MemoryRow) :
    contentPred (some q) r = ciContains q r.content := by
  unfold contentPred
  by_cases h : q = ""
  · subst h; simp [ciContains_empty]
  · simp [h, likeContains_eq_ciContains q hq]

lemma rowMatches_eq_spec (q : String) (tags : Option (List String))
    (hq : plainStr q) (htags : ∀ t ∈ tags.getD [], plainStr t) (r : MemoryRow) :
    rowMatches (some q) tags r = specRowMatches q tags r := by
  unfold rowMatches specRowMatches
  rw [contentPred_eq_spec q hq]
  congr 1
  unfold tagsPred
  match tags with
  | none => rfl
  | some [] => rfl
  | some (t :: ts) =>
    match hr : r.tags with
    | none => rfl
    | some rts =>
      exact all_congrB _ fun tag htag =>
        likeContains_eq_ciContains tag (htags tag htag) (tagsDumps rts)

lemma get_memory_store (st : MemoryStorage) (hWF : st.WF) (now : Nat) (content : String)
    (md : Option Meta) (tags : Option (List String)) (imp : Int) :
    (st.store_memory now content md tags imp).1.get_memory st.nextId =
      some { id := st.nextId, content := content, metadata := truthy md, tags := truthy tags,
             importance := imp, created_at := now, updated_at := now } := by
  unfold MemoryStorage.store_memory MemoryStorage.get_memory
  simp only [List.find?_append]
  have h1 : st.rows.find? (fun r => r.id == st.nextId) = none := by
    rw [List.find?_eq_none]
    intro r hr
    simp only [beq_iff_eq]
    exact Nat.ne_of_lt (hWF r hr)
  rw [h1]
  simp [List.find?]

lemma find?_map_ite (l : List MemoryRow) (memory_id : Nat) (g : MemoryRow → MemoryRow)
    (hg : ∀ r, (g r).id = r.id) :
    (l.map fun r => if r.id == memory_id then g r else r).find? (fun r => r.id == memory_id) =
      (l.find? (fun r => r.id == memory_id)).map g := by
  induction l with
  | nil => rfl
  | cons a l ih =>
    simp only [List.map_cons]
    by_cases ha : (a.id == memory_id) = true
    · have hga : ((g a).id == memory_id) = true := by rw [hg a]; exact ha
      rw [if_pos ha, List.find?_cons, List.find?_cons, hga, ha]
      rfl
    · have ha' : (a.id == memory_id) = false := by simpa using ha
      rw [if_neg ha, List.find?_cons, List.find?_cons, ha']
      exact ih

lemma get_memory_after_update (st : MemoryStorage) (now : Nat) (memory_id : Nat)
    (c : Option String) (md : Option Meta) (tg : Option (List String)) (impo : Option Int)
    (hne : ¬(c = none ∧ md = none ∧ tg = none ∧ impo = none))
    (r : MemoryRow) (hr : st.get_memory memory_id = some r) :
    (st.update_memory now memory_id c md tg impo).1.get_memory memory_id =
      some (applyUpdate now c md tg impo r) := by
  unfold MemoryStorage.get_memory at hr
  unfold MemoryStorage.update_memory MemoryStorage.get_memory
  rw [if_neg hne]
  simp only
  rw [find?_map_ite st.rows memory_id (applyUpdate now c md tg impo) (fun r => rfl), hr]
  rfl

lemma update_success_of_get (st : MemoryStorage) (now : Nat) (memory_id : Nat)
    (c : Option String) (md : Option Meta) (tg : Option (List String)) (impo : Option Int)
    (hne : ¬(c = none ∧ md = none ∧ tg = none ∧ impo = none))
    (r : MemoryRow) (hr : st.get_memory memory_id = some r) :
    (st.update_memory now memory_id c md tg impo).2 = true := by
  unfold MemoryStorage.get_memory at hr
  unfold MemoryStorage.update_memory
  rw [if_neg hne]
  simp only [List.any_eq_true]
  have h2 := List.find?_some hr
  exact ⟨r, List.mem_of_find?_eq_some hr, h2⟩

lemma nextId_le_applyOp (st : MemoryStorage) (op : StorageOp) :
    st.nextId ≤ (applyOp st op).nextId := by
  cases op with
  | store now c md tg imp =>
    show st.nextId ≤ st.nextId + 1
    exact Nat.le_succ _
  | update now id c md tg imp =>
    show st.nextId ≤ (st.update_memory now id c md tg imp).1.nextId
    unfold MemoryStorage.update_memory
    split
    · exact Nat.le_refl _
    · exact Nat.le_refl _
  | delete id =>
    show st.nextId ≤ st.nextId
    exact Nat.le_refl _

lemma nextId_le_foldl (ops : List StorageOp) : ∀ st : MemoryStorage,
    st.nextId ≤ (ops.foldl applyOp st).nextId := by
  induction ops with
  | nil => intro st; exact Nat.le_refl _
  | cons op ops ih =>
    intro st
    exact le_trans (nextId_le_applyOp st op) (ih (applyOp st op))

/-- C8: identity assignment is strictly monotonic and ids are never reused:
for any store and any sequence of intervening mutating operations
(including deletes of any records, the newest included), a second
`store_memory` returns a strictly greater id than a first one.  The model's
`nextId` embeds the `INTEGER PRIMARY KEY AUTOINCREMENT` sequence
(`sqlite_sequence`), which SQLite never decreases. -/
theorem store_memory_id_monotonic (st : MemoryStorage) (ops : List StorageOp)
    (now₁ now₂ : Nat) (c₁ c₂ : String) (md₁ md₂ : Option Meta)
    (tg₁ tg₂ : Option (List String)) (imp₁ imp₂ : Int) :
    (st.store_memory now₁ c₁ md₁ tg₁ imp₁).2 <
      ((ops.foldl applyOp (st.store_memory now₁ c₁ md₁ tg₁ imp₁).1).store_memory
          now₂ c₂ md₂ tg₂ imp₂).2 :=
  lt_of_lt_of_le (Nat.lt_succ_self st.nextId)
    (nextId_le_foldl ops (st.store_memory now₁ c₁ md₁ tg₁ imp₁).1)

/-- C9: Vector Index failures are never fatal to writes.  The index
operations (`store_embedding`, `update_embedding`, `delete_embedding`)
catch every exception internally and return a boolean, so their outcome is
an explicit `Bool` in this model; `remember` returns the storage-assigned
id and updated storage independently of that outcome, and
`update_memory`/`delete_memory` return the Record Store's success flag and
storage independently of it. -/
theorem index_failure_never_fatal (n : NEUROS) (now : Nat) (content : String)
    (md : Option Meta) (tags : Option (List String)) (imp : Int) (memory_id : Nat)
    (c : Option String) (md₂ : Option Meta) (tg₂ : Option (List String))
    (imp₂ : Option Int) :
    ((n.remember now true content md tags imp).id =
        (n.storage.store_memory now content md tags imp).2 ∧
      (n.remember now true content md tags imp).id =
        (n.remember now false content md tags imp).id ∧
      (n.remember now true content md tags imp).storage =
        (n.remember now false content md tags imp).storage) ∧
    ((n.update_memory now true memory_id c md₂ tg₂ imp₂).success =
        (n.storage.update_memory now memory_id c md₂ tg₂ imp₂).2 ∧
      (n.update_memory now true memory_id c md₂ tg₂ imp₂).success =
        (n.update_memory now false memory_id c md₂ tg₂ imp₂).success ∧
      (n.update_memory now true memory_id c md₂ tg₂ imp₂).storage =
        (n.update_memory now false memory_id c md₂ tg₂ imp₂).storage) ∧
    ((n.delete_memory true memory_id).success = (n.storage.delete_memory memory_id).2 ∧
      (n.delete_memory true memory_id).success = (n.delete_memory false memory_id).success ∧
      (n.delete_memory true memory_id).storage = (n.delete_memory false memory_id).storage) :=
  ⟨⟨rfl, rfl, rfl⟩, ⟨rfl, rfl, rfl⟩, ⟨rfl, rfl, rfl⟩⟩

/-- C4 counterexample: `remember` (hence `store_memory`) with empty content
does not fail — no validation exists anywhere in the source and no
`ValidationError` is defined — it returns id 1 and the record with empty
content and out-of-range importance 17 is persisted and retrievable. -/
theorem remember_no_validation_cex :
    (c4N.remember 0 true "" none none 17).id = 1 ∧
    (c4N.remember 0 true "" none none 17).storage.get_memory 1 =
      some { id := 1, content := "", metadata := none, tags := none,
             importance := 17, created_at := 0, updated_at := 0 } := by
  exact ⟨rfl, rfl⟩

/-- C4 amended: `store_memory`/`remember` perform no input validation: for
every content (the empty string included) and every importance (values
outside [1,10] included), the insert succeeds, returns the fresh id, and
the row is persisted verbatim and retrievable. -/
theorem remember_persists_unvalidated (n : NEUROS) (hWF : n.storage.WF) (now : Nat)
    (embedOutcome : Bool) (content : String) (md : Option Meta)
    (tags : Option (List String)) (imp : Int) :
    (n.remember now embedOutcome content md tags imp).id = n.storage.nextId ∧
    (n.remember now embedOutcome content md tags imp).storage.get_memory n.storage.nextId =
      some { id := n.storage.nextId, content := content, metadata := truthy md,
             tags := truthy tags, importance := imp, created_at := now, updated_at := now } :=
  ⟨rfl, get_memory_store n.storage hWF now content md tags imp⟩

/-- C4 witness: the amended theorem applied to the empty store with empty
content and importance 17. -/
theorem remember_persists_unvalidated_witness :
    (c4N.remember 5 true "" none none 17).id = c4N.storage.nextId ∧
    (c4N.remember 5 true "" none none 17).storage.get_memory c4N.storage.nextId =
      some { id := c4N.storage.nextId, content := "", metadata := truthy none,
             tags := truthy none, importance := 17, created_at := 5, updated_at := 5 } :=
  remember_persists_unvalidated c4N (by decide) 5 true "" none none 17

/-- C6 counterexample: storing with an explicitly empty metadata mapping
and an empty tag list does not round-trip those values — Python truthiness
(`json.dumps(x) if x else None`) normalizes them to SQL NULL, which reads
back as absent — so `get` returns a record that differs from the one the
claim predicts. -/
theorem store_get_roundtrip_cex :
    ((MemoryStorage.empty.store_memory 0 "a" (some []) (some []) 1).1.get_memory 1 =
      some { id := 1, content := "a", metadata := none, tags := none, importance := 1,
             created_at := 0, updated_at := 0 }) ∧
    ((MemoryStorage.empty.store_memory 0 "a" (some []) (some []) 1).1.get_memory 1 ≠
      some { id := 1, content := "a", metadata := some [], tags := some [], importance := 1,
             created_at := 0, updated_at := 0 }) := by
  exact ⟨rfl, by decide⟩

/-- C6 amended: round-trip holds up to Python-truthiness normalization of
metadata and tags: on a well-formed store, `get` of the id returned by
`store_memory` yields exactly the stored content and importance, the
assigned id and timestamps, and the stored metadata/tags with an empty or
absent mapping/list normalized to absent. -/
theorem store_get_roundtrip (st : MemoryStorage) (hWF : st.WF) (now : Nat)
    (content : String) (md : Option Meta) (tags : Option (List String)) (imp : Int) :
    (st.store_memory now content md tags imp).1.get_memory
        (st.store_memory now content md tags imp).2 =
      some { id := st.nextId, content := content, metadata := truthy md,
             tags := truthy tags, importance := imp, created_at := now, updated_at := now } :=
  get_memory_store st hWF now content md tags imp

/-- C6 witness: the amended round-trip applied to a store with one prior
row, non-empty metadata and non-empty tags. -/
theorem store_get_roundtrip_witness :
    (c3Storage.store_memory 7 "body" (some [("k", "v")]) (some ["t"]) 9).1.get_memory
        (c3Storage.store_memory 7 "body" (some [("k", "v")]) (some ["t"]) 9).2 =
      some { id := c3Storage.nextId, content := "body", metadata := truthy (some [("k", "v")]),
             tags := truthy (some ["t"]), importance := 9, created_at := 7, updated_at := 7 } :=
  store_get_roundtrip c3Storage (by decide) 7 "body" (some [("k", "v")]) (some ["t"]) 9

/-- C5 counterexample: `search_memories` has no `importance_min` parameter
and applies no importance filter: a search returns records of importance 0
(below the claimed inclusive default minimum of 1) and of importance 4
(below the claimed threshold 5 of the spec's example). -/
theorem search_importance_cex :
    (c5Storage.search_memories none none 50).any (fun r => decide (r.importance < 1)) = true ∧
    (c5Storage.search_memories none none 50).any (fun r => decide (r.importance < 5)) = true := by
  exact ⟨by decide, by decide⟩

/-- C5 amended: the Record Store search operation takes only query, tags
and limit; it applies no importance threshold: every stored row satisfying
the text and tag predicates appears in the result (when the matching set
fits in the limit), whatever its importance. -/
theorem search_memories_no_importance_filter (st : MemoryStorage) (query : Option String)
    (tags : Option (List String)) (limit : Nat) (r : MemoryRow)
    (hr : r ∈ st.rows) (hmatch : rowMatches query tags r = true)
    (hlen : (st.rows.filter (rowMatches query tags)).length ≤ limit) :
    r ∈ st.search_memories query tags limit := by
  unfold MemoryStorage.search_memories
  rw [List.take_of_length_le]
  · rw [mem_isort]
    exact List.mem_filter.mpr ⟨hr, hmatch⟩
  · rw [length_isort]
    exact hlen

/-- C5 witness: the importance-0 row of `c5Storage` is returned by an
unfiltered search. -/
theorem search_memories_no_importance_filter_witness :
    c5Row ∈ c5Storage.search_memories none none 50 :=
  search_memories_no_importance_filter c5Storage none none 50 c5Row
    (by decide) (by decide) (by decide)

/-- C3 counterexample: a record with tags `x`,`y` does NOT match the filter
`y`,`z` although the intersection of the two tag sets is non-empty (`y` is
in both): the source ANDs one `tags LIKE ?` clause per requested tag, a
conjunction, so the claimed intersection (disjunction) semantics fails. -/
theorem tag_filter_intersection_cex :
    c3Storage.search_memories none (some ["y", "z"]) 50 = [] ∧
    ("y" ∈ (["x", "y"] : List String)) ∧ ("y" ∈ (["y", "z"] : List String)) := by
  exact ⟨by decide, by decide, by decide⟩

/-- C3 amended: a record matches a non-empty tag filter iff EVERY requested
tag occurs, case-insensitively, as a substring of the JSON encoding of the
record's tag list (a conjunction over requested tags, not an intersection
test; records with absent tags match no non-empty filter). -/
theorem tag_filter_conjunction (r : MemoryRow) (rts : List String) (t : String)
    (ts : List String) (hr : r.tags = some rts) (hplain : ∀ x ∈ t :: ts, plainStr x) :
    tagsPred (some (t :: ts)) r =
      (t :: ts).all fun tag => ciContains tag (tagsDumps rts) := by
  unfold tagsPred
  rw [hr]
  exact all_congrB _ fun tag htag =>
    likeContains_eq_ciContains tag (hplain tag htag) (tagsDumps rts)

/-- C3 witness: the conjunction characterization applied to the `x`,`y`
record and the filter `y`,`z` (where it evaluates to false) — the filter
`y` alone evaluates to true. -/
theorem tag_filter_conjunction_witness :
    tagsPred (some ["y", "z"]) c3Row =
      (["y", "z"] : List String).all fun tag => ciContains tag (tagsDumps ["x", "y"]) :=
  tag_filter_conjunction c3Row ["x", "y"] "y" ["z"] (by decide) (by decide)

/-- C10: updating an existing record with the empty string as content
returns `True` and afterwards the record's content is the empty string —
storage tests `content is not None`, so the empty string is applied — while
the orchestrator's re-embedding step is skipped, because
`if success and content and self.embeddings` tests the new content for
truthiness and the empty string is falsy. -/
theorem update_empty_content_skips_reembed (n : NEUROS) (now : Nat) (embedOutcome : Bool)
    (memory_id : Nat) (r : MemoryRow) (hr : n.storage.get_memory memory_id = some r) :
    (n.update_memory now embedOutcome memory_id (some "") none none none).success = true ∧
    (n.update_memory now embedOutcome memory_id (some "") none none none).embedCalled = false ∧
    ((n.update_memory now embedOutcome memory_id (some "") none none none).storage.get_memory
        memory_id).map MemoryRow.content = some "" := by
  have hne : ¬((some "" : Option String) = none ∧ (none : Option Meta) = none ∧
      (none : Option (List String)) = none ∧ (none : Option Int) = none) := by simp
  have hsucc := update_success_of_get n.storage now memory_id (some "") none none none hne r hr
  refine ⟨?_, ?_, ?_⟩
  · show (n.storage.update_memory now memory_id (some "") none none none).2 = true
    exact hsucc
  · show ((n.storage.update_memory now memory_id (some "") none none none).2 &&
        ("" != "") && n.embeddings) = false
    simp
  · show ((n.storage.update_memory now memory_id (some "") none none none).1.get_memory
        memory_id).map MemoryRow.content = some ""
    rw [get_memory_after_update n.storage now memory_id (some "") none none none hne r hr]
    rfl

/-- C10 witness: the empty-content update applied to the one-record store
of `c10N`. -/
theorem update_empty_content_skips_reembed_witness :
    (c10N.update_memory 3 true 1 (some "") none none none).success = true ∧
    (c10N.update_memory 3 true 1 (some "") none none none).embedCalled = false ∧
    ((c10N.update_memory 3 true 1 (some "") none none none).storage.get_memory 1).map
      MemoryRow.content = some "" :=
  update_empty_content_skips_reembed c10N 3 true 1 c10Row (by decide)

/-- C2 counterexample: with semantic search disabled, `recall("needle")`
returns the record whose content is `Needle thread` although `needle` is
NOT a case-sensitive substring of it — SQLite `LIKE` is case-insensitive
over ASCII, so the claimed case-sensitive matching rule fails. -/
theorem recall_case_sensitivity_cex :
    c2N.recall (.error ()) (some "needle") none false 10 =
      [{ record := { id := 1, content := "Needle thread", metadata := none, tags := none,
                     importance := 1, created_at := 0, updated_at := 0 },
         similarity := none, search_type := "text" }] ∧
    containsSub "needle".toList "Needle thread".toList = false := by
  exact ⟨by decide, by decide⟩

/-- C2 amended: with semantic search disabled and a query free of `LIKE`
metacharacters, `recall` returns exactly the records whose content contains
the query as a CASE-INSENSITIVE (ASCII) substring and that satisfy the
conjunctive encoded-tag predicate when tags are given, ordered by
importance descending with ties broken by created_at descending, truncated
to `limit`, each tagged with provenance `text`. -/
theorem recall_text_search_ci (n : NEUROS) (sem : Except Unit (List SemanticHit))
    (q : String) (tags : Option (List String)) (limit : Nat)
    (hq : plainStr q) (htags : ∀ t ∈ tags.getD [], plainStr t) :
    n.recall sem (some q) tags false limit =
      (specTextSearch n.storage q tags limit).map
        fun m => { record := m, similarity := none, search_type := "text" } := by
  have h1 : n.recall sem (some q) tags false limit = n.textResults (some q) tags limit := by
    simp [NEUROS.recall]
  rw [h1]
  unfold NEUROS.textResults MemoryStorage.search_memories specTextSearch
  rw [List.filter_congr (fun r _ => rowMatches_eq_spec q tags hq htags r)]
  apply List.take_of_length_le
  rw [List.length_map, List.length_take]
  exact Nat.min_le_left _ _

/-- C2 witness: the amended text-search characterization applied to a
two-record store with query `thread` and tag filter `work`. -/
theorem recall_text_search_ci_witness :
    w2N.recall (.error ()) (some "thread") (some ["work"]) false 10 =
      (specTextSearch w2N.storage "thread" (some ["work"]) 10).map
        fun m => { record := m, similarity := none, search_type := "text" } :=
  recall_text_search_ci w2N (.error ()) "thread" (some ["work"]) 10 (by decide) (by decide)

/-- C1 counterexample: the semantic path runs (semantic enabled and
configured, query `hello` of trimmed length 5, sub-call returns without
raising) and yields zero results, and `recall` DOES fall back to text
search, returning the text-tagged record rather than the empty semantic
result set — the source treats zero semantic results as a fallback
trigger. -/
theorem recall_zero_semantic_cex :
    c1N.recall (.ok []) (some "hello") none true 10 =
      [{ record := { id := 1, content := "say hello", metadata := none, tags := none,
                     importance := 2, created_at := 0, updated_at := 0 },
         similarity := none, search_type := "text" }] := by
  decide

/-- C1 amended: when the semantic path runs and its sub-call completes
without raising, `recall` returns up to `limit` of the resolved semantic
results IF at least one hit resolved; with zero resolved results it falls
back to text search (fallback triggers are: semantic path not run, raised,
or resolved zero results — fewer-than-limit-but-nonzero is not a
trigger). -/
theorem recall_semantic_policy (n : NEUROS) (hits : List SemanticHit) (q : String)
    (tags : Option (List String)) (limit : Nat)
    (hemb : n.embeddings = true) (h1 : q ≠ "") (h2 : pyStrip q ≠ "")
    (h3 : 2 < (pyStrip q).length) :
    n.recall (.ok hits) (some q) tags true limit =
      (if resolveHits n.storage hits = [] then n.textResults (some q) tags limit
       else (resolveHits n.storage hits).take limit) := by
  by_cases hres : resolveHits n.storage hits = []
  · rw [if_pos hres]
    rcases Nat.eq_zero_or_pos limit with h0 | hpos
    · subst h0
      simp [NEUROS.recall, hemb, h1, h2, h3, hres, NEUROS.textResults]
    · have hnle : ¬(limit ≤ (resolveHits n.storage hits).length) := by
        rw [hres]
        simp only [List.length_nil]
        omega
      simp [NEUROS.recall, hemb, h1, h2, h3, hres, hnle]
      intro h0
      exact absurd h0 (by omega)
  · rw [if_neg hres]
    have hlen : 0 < (resolveHits n.storage hits).length := List.length_pos.mpr hres
    simp [NEUROS.recall, hemb, h1, h2, h3, hlen]

/-- C1 witness: the amended policy applied to a one-record store with a
resolving hit. -/
theorem recall_semantic_policy_witness :
    c1N.recall (.ok [{ memory_id := 1, similarity := 7 }]) (some "hello") none true 10 =
      (if resolveHits c1N.storage [{ memory_id := 1, similarity := 7 }] = []
       then c1N.textResults (some "hello") none 10
       else (resolveHits c1N.storage [{ memory_id := 1, similarity := 7 }]).take 10) :=
  recall_semantic_policy c1N [{ memory_id := 1, similarity := 7 }] "hello" none 10
    rfl (by decide) (by decide) (by decide)

/-- C7: the Record Store is authoritative — for any id absent from the
store (deleted or never present), no result of `recall` carries that id:
semantic hits whose id does not resolve through `get_memory` are dropped,
and text results come from the store itself. -/
theorem recall_store_authority (n : NEUROS) (sem : Except Unit (List SemanticHit))
    (query : Option String) (tags : Option (List String)) (use_semantic : Bool)
    (limit : Nat) (d : Nat) (hd : n.storage.get_memory d = none) :
    (n.recall sem query tags use_semantic limit).all (fun m => m.record.id != d) = true := by
  have hrows : ∀ r ∈ n.storage.rows, ¬(r.id == d) = true := by
    unfold MemoryStorage.get_memory at hd
    exact List.find?_eq_none.mp hd
  have htext : ∀ m ∈ n.textResults query tags limit, (m.record.id != d) = true := by
    intro m hm
    unfold NEUROS.textResults MemoryStorage.search_memories at hm
    have hm1 := List.mem_of_mem_take hm
    rcases List.mem_map.mp hm1 with ⟨row, hrow, hrowEq⟩
    have hrow2 := List.mem_of_mem_take hrow
    rw [mem_isort] at hrow2
    have hrow3 := (List.mem_filter.mp hrow2).1
    cases hrowEq
    simp only [bne_iff_ne, ne_eq]
    intro hEq
    exact hrows row hrow3 (by simp [hEq])
  have hsem : ∀ hits : List SemanticHit, ∀ m ∈ resolveHits n.storage hits,
      (m.record.id != d) = true := by
    intro hits m hm
    unfold resolveHits at hm
    rcases List.mem_filterMap.mp hm with ⟨hit, _, hres⟩
    rcases Option.map_eq_some'.mp hres with ⟨row, hget, hrowEq⟩
    unfold MemoryStorage.get_memory at hget
    have hrowMem := List.mem_of_find?_eq_some hget
    cases hrowEq
    simp only [bne_iff_ne, ne_eq]
    intro hEq
    exact hrows row hrowMem (by simp [hEq])
  rw [List.all_eq_true]
  intro m hm
  cases sem with
  | ok hits =>
    simp only [NEUROS.recall] at hm
    split at hm
    · split at hm
      · exact hsem hits m (List.mem_of_mem_take hm)
      · exact htext m hm
    · exact htext m hm
  | error e =>
    simp only [NEUROS.recall] at hm
    split at hm
    · exact htext m hm
    · exact htext m hm

/-- C7 witness: a stale hit for the deleted id 5 over the one-record store
of `c7N` is never returned. -/
theorem recall_store_authority_witness :
    (c7N.storage.get_memory 5 = none) ∧
    ((c7N.recall (.ok [{ memory_id := 5, similarity := 9 }]) (some "hello") none true
        10).all fun m => m.record.id != 5) = true :=
  ⟨by decide, recall_store_authority c7N (.ok [{ memory_id := 5, similarity := 9 }])
      (some "hello") none true 10 5 (by decide)⟩
